import Mathlib

/-!
# Verification of the sensor-data pipeline of reduct-vibration-example

Shallow embedding of the repository's core pipeline
(`src/scripts/helper_functions.py`, `src/scripts/utils.py`,
`src/scripts/reduct_example.py`, `src/scripts/reduct_data_processing.py`,
`src/scripts/influxdb_data_processing.py`, `src/scripts/run_benchmark.py`):

* the codec (`pack_data` / the `struct.unpack`-based decoder in `query_data`),
  modelled on float32 bit patterns (naturals below `2^32`) and byte lists;
* the signal generator `generate_sensor_data` (NumPy `linspace`-based), with
  the floating-point sample values abstracted by a parameter, since only the
  sample count and failure behaviour are value-independent and verified here;
* the metric extractor `calculate_metrics` over the reals (the idealisation of
  the IEEE-754 arithmetic the scripts perform with NumPy);
* the `"high"`/`"low"` label computation of `store_data`;
* the chunking of a signal into `duration` pieces via `np.array_split`;
* the timestamp stepping of the InfluxDB write path.
-/

namespace Vibration

/-! ## Codec: `pack_data` (helper_functions.py lines 32-35) and the
`struct.unpack` decoding in `query_data` (reduct_data_processing.py 45-49).

A float32 sample is represented by its 32-bit big-endian bit pattern, a
natural number below `2 ^ 32`; a payload is a list of bytes (naturals below
`256`).  `struct.pack(">{n}f", *signal)` emits, per sample, the four bytes of
its IEEE-754 single representation, most significant first. -/

/-- The four big-endian bytes of a 32-bit word, most significant first. -/
def word32ToBytesBE (w : Nat) : List Nat :=
  [w / 2 ^ 24 % 256, w / 2 ^ 16 % 256, w / 2 ^ 8 % 256, w % 256]

/-- `pack_data(signal)`: `struct.pack(f">{len(signal)}f", *signal)` —
each sample serialised as a big-endian 32-bit float, concatenated in order. -/
def pack_data (signal : List Nat) : List Nat :=
  signal.flatMap word32ToBytesBE

/-- Reassemble consecutive groups of four bytes into 32-bit words
(big-endian).  Trailing bytes that do not fill a group are ignored here;
`unpack_payload` below only calls this on exact multiples of four. -/
def bytesToWords32BE : List Nat → List Nat
  | b0 :: b1 :: b2 :: b3 :: rest =>
      (((b0 * 256 + b1) * 256 + b2) * 256 + b3) :: bytesToWords32BE rest
  | _ => []

/-- The decoder used by every `query_data` in the repository:
`num_points = len(data) // 4; struct.unpack(f">{num_points}f", data)`.
`struct.unpack` demands that the buffer length equal `4 * num_points`,
i.e. `len(data) % 4 == 0`; otherwise it raises (`MalformedPayload` in the
spec's taxonomy), modelled as `none`. -/
def unpack_payload (data : List Nat) : Option (List Nat) :=
  if data.length % 4 = 0 then some (bytesToWords32BE data) else none

/-- A 32-bit word is a finite float32 when its exponent field (bits 23-30)
is not all ones (all ones encodes infinities and NaNs). -/
def float32Finite (w : Nat) : Prop :=
  w / 2 ^ 23 % 2 ^ 8 ≠ 255

instance (w : Nat) : Decidable (float32Finite w) := by
  unfold float32Finite; infer_instance

/-! ### Codec lemmas -/

theorem word32ToBytesBE_length (w : Nat) : (word32ToBytesBE w).length = 4 := rfl

theorem pack_data_length (s : List Nat) : (pack_data s).length = 4 * s.length := by
  induction s with
  | nil => rfl
  | cons w s ih =>
      simp only [pack_data, List.flatMap_cons, List.length_append,
        word32ToBytesBE_length, List.length_cons] at *
      omega

theorem bytesToWords32BE_pack (w : Nat) (hw : w < 2 ^ 32) (rest : List Nat) :
    bytesToWords32BE (word32ToBytesBE w ++ rest) = w :: bytesToWords32BE rest := by
  simp only [word32ToBytesBE, List.cons_append, List.nil_append, bytesToWords32BE]
  congr 1
  omega

/-! ## Claims C1, C2, C8 -/

/-- C8: for every sequence `s` of samples, the packed payload has length
exactly four times the number of samples: `len(pack_data(s)) == 4 * len(s)`. -/
theorem packed_payload_length_law (s : List Nat) :
    (pack_data s).length = 4 * s.length :=
  pack_data_length s

/-- C1: for every finite-valued sequence `s` of float32 samples (each sample a
valid 32-bit pattern with non-all-ones exponent), decoding the packed payload
returns `s` exactly, bit for bit: `unpack_payload (pack_data s) = some s`. -/
theorem unpack_pack_roundtrip (s : List Nat)
    (h : ∀ w ∈ s, w < 2 ^ 32 ∧ float32Finite w) :
    unpack_payload (pack_data s) = some s := by
  have hjoin : bytesToWords32BE (pack_data s) = s := by
    induction s with
    | nil => rfl
    | cons w t ih =>
        have hw : w < 2 ^ 32 := (h w (List.mem_cons_self w t)).1
        have ht : ∀ v ∈ t, v < 2 ^ 32 ∧ float32Finite v := fun v hv =>
          h v (List.mem_cons_of_mem w hv)
        simp only [pack_data, List.flatMap_cons] at *
        rw [bytesToWords32BE_pack w hw, ih ht]
  unfold unpack_payload
  rw [pack_data_length s, if_pos (by omega), hjoin]

/-- Witness for C1 at the concrete signal `[1.0f, 0.0f, -2.5f]`
(bit patterns `0x3F800000`, `0x00000000`, `0xC0200000`). -/
theorem unpack_pack_roundtrip_witness :
    (∀ w ∈ [0x3F800000, 0, 0xC0200000], w < 2 ^ 32 ∧ float32Finite w) ∧
      unpack_payload (pack_data [0x3F800000, 0, 0xC0200000]) =
        some [0x3F800000, 0, 0xC0200000] :=
  ⟨by decide, unpack_pack_roundtrip [0x3F800000, 0, 0xC0200000] (by decide)⟩

/-- C2: for every byte string whose length is not a multiple of 4, the decoder
fails (`struct.unpack` raises, `MalformedPayload` in the spec's taxonomy);
the payload is never silently truncated to whole samples. -/
theorem unpack_malformed_rejected (data : List Nat)
    (h : data.length % 4 ≠ 0) :
    unpack_payload data = none := by
  unfold unpack_payload
  rw [if_neg h]

/-- Witness for C2 at a concrete three-byte payload. -/
theorem unpack_malformed_rejected_witness :
    ([0, 1, 2] : List Nat).length % 4 ≠ 0 ∧
      unpack_payload [0, 1, 2] = none :=
  ⟨by decide, unpack_malformed_rejected [0, 1, 2] (by decide)⟩

/-! ## Signal generator: `generate_sensor_data` (helper_functions.py 17-21)

```python
t = np.linspace(0, duration, frequency * duration)
signal = np.sin(2 * np.pi * 10 * t) + 0.5 * np.random.randn(len(t))
return signal.astype(np.float32)
```

NumPy's `linspace(start, stop, num)` first validates `num`: a negative sample
count raises `ValueError` ("Number of samples must be non-negative");
`num = 0` yields an empty array and `num = 1` yields `[start]`; otherwise it
yields `num` points `start + (stop - start) * i / (num - 1)` for
`i = 0, ..., num - 1`.  The function performs no validation of its own: there
is no non-positivity check on `frequency` or `duration`.

The time grid is modelled exactly over `ℚ`; each emitted sample is abstracted
as `sample i t` (a parameter standing for
`float32(sin(2*pi*10*t) + 0.5*randn[i])`), since IEEE-754 transcendental
values and the shared RNG draw are not value-modelled; none of the verified
claims depends on the sample values. -/

/-- The only failure the generator can surface: NumPy's `linspace` rejecting a
negative sample count. -/
inductive GenError where
  | negativeSampleCount
  deriving DecidableEq, Repr

/-- `np.linspace(start, stop, num)` over exact rationals. -/
def linspace (start stop : ℚ) (num : Int) : Except GenError (List ℚ) :=
  if num < 0 then Except.error GenError.negativeSampleCount
  else if num.toNat ≤ 1 then Except.ok (List.replicate num.toNat start)
  else Except.ok ((List.range num.toNat).map fun (i : Nat) =>
    start + (stop - start) * (i : ℚ) / ((num.toNat : ℚ) - 1))

/-- `generate_sensor_data(frequency, duration)`: build the time grid
`linspace(0, duration, frequency * duration)` and emit one sample per grid
point, via the abstracted per-index sample function. -/
def generate_sensor_data (frequency duration : Int) (sample : Nat → ℚ → ℚ) :
    Except GenError (List ℚ) := do
  let t ← linspace 0 (duration : ℚ) (frequency * duration)
  return t.mapIdx fun i ti => sample i ti

theorem linspace_length (start stop : ℚ) (num : Int) (h : 0 ≤ num) :
    ∃ t, linspace start stop num = Except.ok t ∧ t.length = num.toNat := by
  unfold linspace
  rw [if_neg (by omega)]
  by_cases h1 : num.toNat ≤ 1
  · exact ⟨_, by rw [if_pos h1], List.length_replicate _ _⟩
  · exact ⟨_, by rw [if_neg h1], by rw [List.length_map, List.length_range]⟩

/-! ## Claims C3, C4 -/

/-- C3: for every positive integer frequency and positive duration, the
generated signal has exactly `frequency * duration` samples. -/
theorem generate_sample_count (frequency duration : Int)
    (sample : Nat → ℚ → ℚ) (hf : 0 < frequency) (hd : 0 < duration) :
    ∃ s, generate_sensor_data frequency duration sample = Except.ok s ∧
      s.length = (frequency * duration).toNat := by
  obtain ⟨t, ht, hlen⟩ :=
    linspace_length 0 (duration : ℚ) (frequency * duration)
      (by positivity)
  refine ⟨t.mapIdx fun i ti => sample i ti, ?_, by simpa using hlen⟩
  unfold generate_sensor_data
  rw [ht]
  rfl

/-- Witness for C3: `generate(frequency=1000, duration=1)` yields exactly
1000 samples. -/
theorem generate_sample_count_witness :
    (0 : Int) < 1000 ∧ (0 : Int) < 1 ∧
      ∃ s, generate_sensor_data 1000 1 (fun _ _ => 0) = Except.ok s ∧
        s.length = ((1000 : Int) * 1).toNat :=
  ⟨by decide, by decide,
    generate_sample_count 1000 1 (fun _ _ => 0) (by decide) (by decide)⟩

/-- Counterexample for C4: `generate_sensor_data(frequency=0, duration=1)`
succeeds with an empty signal — it does not fail for this non-positive
frequency, contradicting the claim that every non-positive frequency or
duration fails with `InvalidParameter`. -/
theorem generate_no_validation_counterexample :
    generate_sensor_data 0 1 (fun _ _ => 0) = Except.ok [] := rfl

/-- C4 (amended): the generator performs no parameter validation; it succeeds
exactly when the requested sample count `frequency * duration` is
non-negative (so e.g. `frequency = 0` or `frequency = duration = -1`
succeed), and fails — with NumPy's negative-sample-count `ValueError`, not an
`InvalidParameter` check of its own — exactly when `frequency * duration`
is negative.  In particular it succeeds for all positive inputs. -/
theorem generate_failure_modes (frequency duration : Int)
    (sample : Nat → ℚ → ℚ) :
    (∃ s, generate_sensor_data frequency duration sample = Except.ok s) ↔
      0 ≤ frequency * duration := by
  constructor
  · rintro ⟨s, hs⟩
    by_contra h
    unfold generate_sensor_data linspace at hs
    rw [if_pos (by omega)] at hs
    exact absurd hs (by simp [Bind.bind, Except.bind])
  · intro h
    obtain ⟨t, ht, -⟩ := linspace_length 0 (duration : ℚ) (frequency * duration) h
    exact ⟨_, by unfold generate_sensor_data; rw [ht]; rfl⟩

/-! ## Labels: `store_data` (reduct_example.py 23-37, reduct_data_processing.py
22-37, sensor_data_example.py 41-54)

```python
labels = {
    "rms": "high" if rms > HIGH_RMS else "low",
    "peak_to_peak": "high" if peak_to_peak > HIGH_PEAK_TO_PEAK else "low",
    "crest_factor": "high" if crest_factor > HIGH_CREST_FACTOR else "low",
}
```

The metric scalars are modelled over `ℚ` (the comparisons against the float
constants `1.0`, `5.0`, `3.0` are exact for any representable value). -/

def HIGH_RMS : ℚ := 1
def HIGH_CREST_FACTOR : ℚ := 3
def HIGH_PEAK_TO_PEAK : ℚ := 5

/-- The label mapping attached by `store_data` to a write. -/
def store_labels (rms peak_to_peak crest_factor : ℚ) : List (String × String) :=
  [("rms", if rms > HIGH_RMS then "high" else "low"),
   ("peak_to_peak", if peak_to_peak > HIGH_PEAK_TO_PEAK then "high" else "low"),
   ("crest_factor", if crest_factor > HIGH_CREST_FACTOR then "high" else "low")]

/-- C6: the labels map each metric name to `"high"` exactly when the metric
exceeds its threshold (`rms > 1.0`, `peak_to_peak > 5.0`,
`crest_factor > 3.0`) and to `"low"` otherwise. -/
theorem store_labels_thresholds (rms peak_to_peak crest_factor : ℚ) :
    ((store_labels rms peak_to_peak crest_factor).lookup "rms" =
        some (if rms > 1 then "high" else "low")) ∧
    ((store_labels rms peak_to_peak crest_factor).lookup "peak_to_peak" =
        some (if peak_to_peak > 5 then "high" else "low")) ∧
    ((store_labels rms peak_to_peak crest_factor).lookup "crest_factor" =
        some (if crest_factor > 3 then "high" else "low")) := by
  refine ⟨?_, ?_, ?_⟩ <;>
    simp [store_labels, List.lookup, HIGH_RMS, HIGH_PEAK_TO_PEAK,
      HIGH_CREST_FACTOR]

/-! ## Timestamp stepping (influxdb_data_processing.py 17-34,
run_benchmark.py line 48)

`benchmark_influxdb` computes `time_step = TimeUnits.NANOSECOND // frequency`
(integer floor division of the time unit by the frequency), and
`store_data` assigns the `step`-th sample the time
`start_time + step * time_step`. -/

/-- `TimeUnits` constants (helper_functions.py 10-14). -/
def NANOSECOND : Nat := 1000000000
def MICROSECOND : Nat := 1000000
def MILLISECOND : Nat := 1000
def SECOND : Nat := 1

/-- The per-sample timestamp step: `time_unit // frequency`. -/
def time_step (time_unit frequency : Nat) : Nat := time_unit / frequency

/-- The timestamps `store_data` attaches to the `n` samples of a signal:
sample `step` is written at `start_time + step * time_step`. -/
def influx_point_times (n start_time step_size : Nat) : List Nat :=
  (List.range n).map fun step => start_time + step * step_size

/-- C7: the per-sample step is `unit // frequency`, truncating integer
division (e.g. a 1 MHz-unit clock at 3 Hz steps by 333333); with `start = 0`,
`frequency = 1000` and microsecond units the `i`-th sample's timestamp is
`i * 1000`. -/
theorem timestamp_stepping (i n : Nat) (h : i < n) :
    time_step MICROSECOND 1000 = 1000 ∧
    time_step MICROSECOND 3 = 333333 ∧
    (influx_point_times n 0 (time_step MICROSECOND 1000)).getD i 0 = i * 1000 := by
  refine ⟨rfl, rfl, ?_⟩
  simp [influx_point_times, time_step, MICROSECOND, List.getD_eq_getElem?_getD,
    List.getElem?_map, List.getElem?_range, h]

/-- Witness for C7 at `i = 7`, `n = 1000`. -/
theorem timestamp_stepping_witness :
    (7 : Nat) < 1000 ∧
      (influx_point_times 1000 0 (time_step MICROSECOND 1000)).getD 7 0 =
        7 * 1000 :=
  ⟨by decide, (timestamp_stepping 7 1000 (by decide)).2.2⟩

/-! ## Chunking: `np.array_split(signal, duration)`
(reduct_data_processing.py 64-75, run_benchmark.py 90-102)

NumPy's `array_split(ary, n)` for an integer `n` computes
`Neach_section, extras = divmod(Ntotal, Nsections)` and cuts the array at the
cumulative sums of the section sizes
`extras * [Neach_section + 1] + (Nsections - extras) * [Neach_section]`:
the FIRST `Ntotal % n` sections are one element longer, not the last. -/

/-- Cut a list into consecutive pieces of the given sizes. -/
def splitBySizes {α : Type} : List α → List Nat → List (List α)
  | _, [] => []
  | s, k :: ks => s.take k :: splitBySizes (s.drop k) ks

/-- The section sizes `np.array_split` uses: `total % sections` sections of
size `total / sections + 1` followed by the rest of size `total / sections`. -/
def sectionSizes (total sections : Nat) : List Nat :=
  List.replicate (total % sections) (total / sections + 1) ++
    List.replicate (sections - total % sections) (total / sections)

/-- `np.array_split(s, sections)` for a positive integer section count. -/
def array_split {α : Type} (s : List α) (sections : Nat) : List (List α) :=
  splitBySizes s (sectionSizes s.length sections)

theorem splitBySizes_length {α : Type} (ks : List Nat) (s : List α) :
    (splitBySizes s ks).length = ks.length := by
  induction ks generalizing s with
  | nil => rfl
  | cons k ks ih => simp [splitBySizes, ih]

theorem splitBySizes_map_length {α : Type} (ks : List Nat) (s : List α)
    (h : ks.sum ≤ s.length) :
    (splitBySizes s ks).map List.length = ks := by
  induction ks generalizing s with
  | nil => rfl
  | cons k ks ih =>
      simp only [List.sum_cons] at h
      simp only [splitBySizes, List.map_cons, List.length_take]
      rw [ih (s.drop k) (by simp only [List.length_drop]; omega)]
      congr 1
      omega

theorem splitBySizes_flatten {α : Type} (ks : List Nat) (s : List α)
    (h : s.length ≤ ks.sum) :
    (splitBySizes s ks).flatten = s := by
  induction ks generalizing s with
  | nil =>
      simp only [List.sum_nil, Nat.le_zero, List.length_eq_zero] at h
      simp [splitBySizes, h]
  | cons k ks ih =>
      simp only [List.sum_cons] at h
      simp only [splitBySizes, List.flatten_cons]
      rw [ih (s.drop k) (by simp only [List.length_drop]; omega)]
      exact List.take_append_drop k s

theorem sectionSizes_length (total sections : Nat) (h : 0 < sections) :
    (sectionSizes total sections).length = sections := by
  have := Nat.mod_lt total h
  simp only [sectionSizes, List.length_append, List.length_replicate]
  omega

theorem sectionSizes_sum (total sections : Nat) (h : 0 < sections) :
    (sectionSizes total sections).sum = total := by
  have h1 : total % sections < sections := Nat.mod_lt total h
  have h2 : total % sections + sections * (total / sections) = total :=
    Nat.mod_add_div total sections
  have h3 : total % sections * (total / sections) ≤
      sections * (total / sections) :=
    Nat.mul_le_mul_right _ (le_of_lt h1)
  simp only [sectionSizes, List.sum_append, List.sum_replicate, smul_eq_mul,
    Nat.mul_add, Nat.mul_one, Nat.sub_mul]
  omega

/-! ## Claim C5 -/

/-- Counterexample for C5 at the concrete signal `[0, 1, 2, 3, 4]` split into
`duration = 3` chunks: `np.array_split` yields chunk sizes `[2, 2, 1]` — the
FIRST `5 % 3 = 2` chunks are one element longer — whereas the claim
("all chunks equal-sized except that the last chunk absorbs any remainder")
predicts base size `5 / 3 = 1` for the leading chunks and size
`1 + 5 % 3 = 3` for the last. -/
theorem array_split_last_absorbs_counterexample :
    (array_split ([0, 1, 2, 3, 4] : List Nat) 3).map List.length = [2, 2, 1] ∧
    ¬ (((array_split ([0, 1, 2, 3, 4] : List Nat) 3).map List.length).take 2 =
          List.replicate 2 (([0, 1, 2, 3, 4] : List Nat).length / 3) ∧
        ((array_split ([0, 1, 2, 3, 4] : List Nat) 3).map
            List.length).getLast? =
          some (([0, 1, 2, 3, 4] : List Nat).length / 3 +
            ([0, 1, 2, 3, 4] : List Nat).length % 3)) := by
  decide

/-- C5 (amended): for every signal and positive `duration`, the chunked-write
path splits the signal into exactly `duration` chunks whose concatenation in
order is the original signal; the chunk sizes are `len % duration` chunks of
size `len / duration + 1` followed by `duration - len % duration` chunks of
size `len / duration` — i.e. the FIRST `len % duration` chunks (not the last
one) absorb the remainder, one extra element each; when `duration` divides
the length all chunks are equal-sized. -/
theorem array_split_spec {α : Type} (s : List α) (d : Nat) (hd : 0 < d) :
    (array_split s d).length = d ∧
    (array_split s d).flatten = s ∧
    (array_split s d).map List.length =
      List.replicate (s.length % d) (s.length / d + 1) ++
        List.replicate (d - s.length % d) (s.length / d) := by
  refine ⟨?_, ?_, ?_⟩
  · rw [array_split, splitBySizes_length, sectionSizes_length _ _ hd]
  · exact splitBySizes_flatten _ _ (by rw [sectionSizes_sum _ _ hd])
  · exact splitBySizes_map_length _ _ (by rw [sectionSizes_sum _ _ hd])

/-- Witness for the amended C5 at the signal `[0, 1, 2, 3, 4]` and
`duration = 3`. -/
theorem array_split_spec_witness :
    0 < 3 ∧
    ((array_split ([0, 1, 2, 3, 4] : List Nat) 3).length = 3 ∧
      (array_split ([0, 1, 2, 3, 4] : List Nat) 3).flatten = [0, 1, 2, 3, 4] ∧
      (array_split ([0, 1, 2, 3, 4] : List Nat) 3).map List.length =
        List.replicate (([0, 1, 2, 3, 4] : List Nat).length % 3)
            (([0, 1, 2, 3, 4] : List Nat).length / 3 + 1) ++
          List.replicate (3 - ([0, 1, 2, 3, 4] : List Nat).length % 3)
            (([0, 1, 2, 3, 4] : List Nat).length / 3)) :=
  ⟨by decide, array_split_spec ([0, 1, 2, 3, 4] : List Nat) 3 (by decide)⟩

/-! ## Metric extractor: `calculate_metrics` (helper_functions.py 24-29,
utils.py 15-20)

```python
rms = np.sqrt(np.mean(signal**2))
peak_to_peak = np.max(signal) - np.min(signal)
crest_factor = np.max(np.abs(signal)) / rms
return rms, peak_to_peak, crest_factor
```

Modelled over the reals, the exact idealisation of the IEEE-754 arithmetic
NumPy performs (`np.mean` is sum divided by length).  `np.max`/`np.min` of an
empty array raise; the list extrema below return a junk value `0` on `[]`,
and every theorem about them restricts to non-empty signals. -/

noncomputable def listMax : List ℝ → ℝ
  | [] => 0
  | [x] => x
  | x :: y :: t => max x (listMax (y :: t))

noncomputable def listMin : List ℝ → ℝ
  | [] => 0
  | [x] => x
  | x :: y :: t => min x (listMin (y :: t))

/-- `calculate_metrics(signal)`: the `(rms, peak_to_peak, crest_factor)`
triple. -/
noncomputable def calculate_metrics (signal : List ℝ) : ℝ × ℝ × ℝ :=
  let rms := Real.sqrt ((signal.map fun x => x ^ 2).sum / signal.length)
  let peak_to_peak := listMax signal - listMin signal
  let crest_factor := listMax (signal.map fun x => |x|) / rms
  (rms, peak_to_peak, crest_factor)

theorem le_listMax (l : List ℝ) : ∀ x ∈ l, x ≤ listMax l := by
  induction l with
  | nil => simp
  | cons a t ih =>
      cases t with
      | nil => simp [listMax]
      | cons b u =>
          intro x hx
          simp only [listMax]
          rcases List.mem_cons.mp hx with h | h
          · exact h ▸ le_max_left _ _
          · exact le_trans (ih x h) (le_max_right _ _)

/-! ## Claims C9, C10 -/

/-- C9: the metric extractor on the constant signal `[1, 1, 1, 1]` returns
exactly `(1.0, 0.0, 1.0)`: RMS 1, peak-to-peak 0, crest factor 1 (it is a
pure function of the input sequence — a Lean `def` with no effects). -/
theorem metrics_const_one :
    calculate_metrics [1, 1, 1, 1] = (1, 0, 1) := by
  simp only [calculate_metrics, List.map_cons, List.map_nil, List.sum_cons,
    List.sum_nil, List.length_cons, List.length_nil, listMax, listMin]
  norm_num [Real.sqrt_one]

/-- C10: for every non-empty signal with strictly positive RMS, the crest
factor is at least 1, since the peak absolute amplitude dominates the RMS. -/
theorem crest_factor_ge_one (s : List ℝ) (hne : s ≠ [])
    (hrms : 0 < (calculate_metrics s).1) :
    1 ≤ (calculate_metrics s).2.2 := by
  simp only [calculate_metrics] at hrms ⊢
  have hMmem : ∀ y ∈ s.map (fun x => |x|), y ≤ listMax (s.map fun x => |x|) :=
    le_listMax _
  obtain ⟨a, ha⟩ := List.exists_mem_of_ne_nil s hne
  have hM0 : 0 ≤ listMax (s.map fun x => |x|) :=
    le_trans (abs_nonneg a) (hMmem _ (List.mem_map_of_mem _ ha))
  have hlen : 0 < (s.length : ℝ) := by
    exact_mod_cast List.length_pos.mpr hne
  have hsum : (s.map fun x => x ^ 2).sum ≤
      (s.map fun x => x ^ 2).length • (listMax (s.map fun x => |x|)) ^ 2 := by
    refine List.sum_le_card_nsmul _ _ ?_
    intro y hy
    obtain ⟨x, hx, rfl⟩ := List.mem_map.mp hy
    calc x ^ 2 = |x| ^ 2 := (sq_abs x).symm
    _ ≤ (listMax (s.map fun x => |x|)) ^ 2 :=
        pow_le_pow_left₀ (abs_nonneg x) (hMmem _ (List.mem_map_of_mem _ hx)) 2
  have hdiv : (s.map fun x => x ^ 2).sum / s.length ≤
      (listMax (s.map fun x => |x|)) ^ 2 := by
    rw [div_le_iff₀ hlen]
    calc (s.map fun x => x ^ 2).sum ≤
        (s.map fun x => x ^ 2).length • (listMax (s.map fun x => |x|)) ^ 2 :=
          hsum
    _ = (listMax (s.map fun x => |x|)) ^ 2 * s.length := by
        rw [List.length_map, nsmul_eq_mul, mul_comm]
  have hr : Real.sqrt ((s.map fun x => x ^ 2).sum / s.length) ≤
      listMax (s.map fun x => |x|) := by
    calc Real.sqrt ((s.map fun x => x ^ 2).sum / s.length) ≤
        Real.sqrt ((listMax (s.map fun x => |x|)) ^ 2) := Real.sqrt_le_sqrt hdiv
    _ = listMax (s.map fun x => |x|) := Real.sqrt_sq hM0
  rw [one_le_div hrms]
  exact hr

/-- Witness for C10 at the one-sample signal `[1]`, whose RMS is `1 > 0`. -/
theorem crest_factor_ge_one_witness :
    ([1] : List ℝ) ≠ [] ∧ 0 < (calculate_metrics [(1 : ℝ)]).1 ∧
      1 ≤ (calculate_metrics [(1 : ℝ)]).2.2 := by
  have hne : ([1] : List ℝ) ≠ [] := by simp
  have hrms : 0 < (calculate_metrics [(1 : ℝ)]).1 := by
    simp only [calculate_metrics, List.map_cons, List.map_nil, List.sum_cons,
      List.sum_nil, List.length_cons, List.length_nil]
    norm_num [Real.sqrt_one]
  exact ⟨hne, hrms, crest_factor_ge_one [1] hne hrms⟩

end Vibration
